import Mathlib

/-!
# Verification of the planning-poker P2P session core (estimate-up)

Shallow embedding of the session-state, signaling-codec and
connection-monitor code of the repository:

* `src/lib/stores/game.ts` — deck generation and vote statistics;
* `src/lib/webrtc/signaling.ts` — offer/answer text codecs and validation;
* `src/lib/webrtc/host.ts` — host-authoritative session state machine;
* `src/lib/webrtc/guest.ts` — guest join (link decoding and expiry);
* `src/lib/webrtc/connection.ts` — the `isConnected` health predicate;
* `src/routes/room/[id]/+page.svelte` — the UI gating predicates.

JS `Map`s are association lists with insert-in-place semantics, JS numbers
that hold epoch milliseconds are `Int`, vote arithmetic is exact `Rat`
(with `toFixed(1)` + `parseFloat` modelled as exact decimal rounding
`round1`), and `Math.random()` choices are an explicit index parameter.
-/

/-- Peer connection states (`RTCPeerConnectionState`). -/
inductive PeerConnState where
  | newState | connecting | connected | disconnected | failed | closed
deriving DecidableEq, Repr

/-- ICE connection states (`RTCIceConnectionState`). -/
inductive IceConnState where
  | newState | checking | connected | completed | disconnected | failed | closed
deriving DecidableEq, Repr

/-- Data channel states (`RTCDataChannelState`). -/
inductive DataChState where
  | dcConnecting | dcOpen | dcClosing | dcClosed
deriving DecidableEq, Repr

/-- The observable state of one `WebRTCConnection`
(`connection.ts`): peer connection state, ICE connection state, and the
data channel's `readyState` (`none` when no channel exists, i.e. JS
`undefined`). -/
structure ConnInfo where
  cs : PeerConnState
  ics : IceConnState
  dcs : Option DataChState
deriving DecidableEq, Repr

/-- `WebRTCConnection.isConnected` (connection.ts lines 320-336):
`(connectionState === 'connected' || iceConnectionState === 'connected') &&
 (dataChannelState === 'open' || 'connecting' || undefined)`. -/
def isConnected (c : ConnInfo) : Bool :=
  (decide (c.cs = PeerConnState.connected) || decide (c.ics = IceConnState.connected)) &&
    (decide (c.dcs = some DataChState.dcOpen) || decide (c.dcs = some DataChState.dcConnecting) ||
      decide (c.dcs = none))

/-- Modelled from the spec: the claimed connected predicate of §4.3 —
"(transport-reported connected) OR (ICE connected AND channel-state in
{open, opening})".  Written for comparison against the code's
`isConnected`; the same formula does appear in the source, but as the
per-participant `connected` flag of `handleConnectionStateChange`
(unnamed host variant), not as `isConnected`. -/
def specConnected (c : ConnInfo) : Bool :=
  decide (c.cs = PeerConnState.connected) ||
    (decide (c.ics = IceConnState.connected) &&
      (decide (c.dcs = some DataChState.dcOpen) || decide (c.dcs = some DataChState.dcConnecting)))

/-- A fresh connection made by the host for a participant:
`new WebRTCConnection()` + `createDataChannel()` (channel starts in
`connecting`). -/
def freshConn : ConnInfo :=
  { cs := PeerConnState.newState, ics := IceConnState.newState,
    dcs := some DataChState.dcConnecting }

/-- `User` (types.ts): `selectedCard?` is optional. -/
structure User where
  id : String
  name : String
  isHost : Bool
  connected : Bool
  selectedCard : Option String
deriving DecidableEq, Repr

/-- Game phases (`GameState` in types.ts): `'waiting' | 'voting' | 'revealed'`. -/
inductive GState where
  | waiting | voting | revealed
deriving DecidableEq, Repr

/-- `GameResults` as stored by `calculateResults` (host.ts):
`{average, total, votes}` with the numbers already `parseFloat`ed. -/
structure GameResults where
  average : ℚ
  total : ℚ
  votes : List String
deriving DecidableEq, Repr

/-- JS `Map.set`: replace the value in place when the key exists,
otherwise append at the end (JS `Map`s iterate in insertion order). -/
def mapSet (k : String) (v : α) : List (String × α) → List (String × α)
  | [] => [(k, v)]
  | (k', v') :: t => if k' = k then (k, v) :: t else (k', v') :: mapSet k v t

/-- JS `Map.get` (as `Option`). -/
def mapGet (k : String) : List (String × α) → Option α
  | [] => none
  | (k', v) :: t => if k' = k then some v else mapGet k t

/-- JS `Map.delete`. -/
def mapDel (k : String) : List (String × α) → List (String × α)
  | [] => []
  | (k', v) :: t => if k' = k then t else (k', v) :: mapDel k t

/-- JS `Map.size`. -/
def mapSize (m : List (String × α)) : ℕ := m.length

/-- Number of entries stored under key `k`. -/
def countKey (k : String) (m : List (String × α)) : ℕ :=
  (m.map Prod.fst).count k

/-- The keys of a JS `Map` are pairwise distinct. -/
def keysNodup (m : List (String × α)) : Prop := (m.map Prod.fst).Nodup

/-- `Room` (types.ts): the host-authoritative session state. -/
structure Room where
  id : String
  hostId : String
  participants : List (String × User)
  gameState : GState
  cards : List String
  currentRound : ℕ
  results : Option GameResults
deriving DecidableEq, Repr

/-! ## game.ts — deck and statistics -/

/-- `foodEmojis` (game.ts lines 5-38): the 32-entry food emoji pool. -/
def foodEmojis : List String :=
  ["🍕", "🍔", "🌭", "🍟", "🍿", "🥨", "🥞", "🧇", "🍩", "🍪", "🍰", "🧁",
   "🍭", "🍬", "🍫", "🍯", "🍎", "🍌", "🍇", "🍓", "🍑", "🥝", "🍊", "🍋",
   "☕", "🥤", "🧃", "🍻", "🍺", "🥛", "🍵", "🧊"]

/-- The fixed leading card sequence of `generateCardDeck`. -/
def baseCards : List String :=
  ["1/4", "1/2", "1", "2", "3", "4", "5", "6", "7", "8", "9", "?"]

/-- `generateCardDeck` (game.ts lines 41-44).  `Math.floor(Math.random() *
foodEmojis.length)` draws a uniform index in `[0, 32)`; the draw is made
explicit as the parameter `k`, reduced mod the pool size. -/
def generateCardDeck (k : ℕ) : List String :=
  baseCards ++
    [foodEmojis.get ⟨k % foodEmojis.length, Nat.mod_lt _ (by simp [foodEmojis])⟩]

/-- `isFoodEmoji` (game.ts lines 47-49). -/
def isFoodEmoji (card : String) : Bool := foodEmojis.contains card

/-- JS `parseFloat` restricted to the digit strings it is actually applied
to in `calculateStats` (the deck's `'1'..'9'`; `'1/4'` and `'1/2'` are
special-cased before the call and `'?'`/emojis are filtered out): the value
of the leading digit run, `0` when there is none. -/
def jsParseFloat (s : String) : ℚ :=
  ((s.data.takeWhile Char.isDigit).foldl (fun a c => a * 10 + (c.toNat - 48)) 0 : ℕ)

/-- JS `x.toFixed(1)` followed by `parseFloat`, as one exact decimal
rounding: nearest multiple of `1/10`, ties away from zero upward (the
`toFixed` tie rule picks the larger `n`). -/
def round1 (q : ℚ) : ℚ := (⌊q * 10 + 1 / 2⌋ : ℚ) / 10

/-- The numeric-vote extraction pipeline of `calculateStats` (game.ts lines
53-59): drop `'?'` and food emojis, map `'1/4' ↦ 0.25`, `'1/2' ↦ 0.5`,
anything else through `parseFloat`. -/
def numericVotesOf (vals : List String) : List ℚ :=
  (vals.filter (fun v => !(v == "?") && !isFoodEmoji v)).map
    (fun v => if v = "1/4" then 1 / 4 else if v = "1/2" then 1 / 2 else jsParseFloat v)

/-- The record returned by `calculateStats`; `average` and `total` hold the
values after the `toFixed(1)` formatting and the `parseFloat` performed on
them by `calculateResults`. -/
structure Stats where
  average : ℚ
  total : ℚ
  numericCount : ℕ
  questionCount : ℕ
  foodCount : ℕ
deriving DecidableEq, Repr

/-- `calculateStats` (game.ts lines 52-71) on the `votes` record, taken as
an association list in insertion order (`Object.values`). -/
def calculateStats (votes : List (String × String)) : Stats :=
  let vals := votes.map Prod.snd
  let numericVotes := numericVotesOf vals
  let total := numericVotes.sum
  let average := if numericVotes.length > 0 then total / numericVotes.length else 0
  { average := round1 average
    total := round1 total
    numericCount := numericVotes.length
    questionCount := (vals.filter (fun v => v == "?")).length
    foodCount := (vals.filter (fun v => isFoodEmoji v)).length }

/-! ## host.ts — the host-authoritative session state machine -/

/-- `calculateResults` (host.ts lines 315-332): snapshot the non-host
selections (a JS truthy check, so an empty-string card also does not
count), run `calculateStats`, store `{average, total, votes}`. -/
def calculateResults (room : Room) : Room :=
  let votes := (room.participants.filter
      (fun e => !e.2.isHost && match e.2.selectedCard with
        | some c => !(c == "")
        | none => false)).map
    (fun e => (e.1, e.2.selectedCard.getD ""))
  let stats := calculateStats votes
  { room with
    results := some { average := stats.average, total := stats.total,
                      votes := votes.map Prod.snd } }

/-- `changeGameState` (host.ts lines 291-312): the phase is set to the
requested target unconditionally; a `voting` target clears every non-host
selection, a `revealed` target computes the results. -/
def changeGameState (room : Room) (newState : GState) : Room :=
  let r := { room with gameState := newState }
  if newState = GState.voting then
    { r with
      participants := r.participants.map (fun e =>
        if e.2.isHost then e else (e.1, { e.2 with selectedCard := none })) }
  else if newState = GState.revealed then
    calculateResults r
  else r

/-- `nextRound` (host.ts lines 335-356): bump the round
(`(currentRound || 1) + 1`), reset to `waiting`, clear results and
selections, regenerate the deck (fresh random draw `k`). -/
def nextRound (room : Room) (k : ℕ) : Room :=
  { room with
    currentRound := (if room.currentRound = 0 then 1 else room.currentRound) + 1
    gameState := GState.waiting
    results := none
    participants := room.participants.map
      (fun e => if e.2.isHost then e else (e.1, { e.2 with selectedCard := none }))
    cards := generateCardDeck k }

/-- `handleCardSelection` (host.ts lines 219-237): record the card only
when the participant exists and the phase is `voting`. -/
def handleCardSelection (room : Room) (participantId card : String) : Room :=
  match mapGet participantId room.participants with
  | none => room
  | some u =>
    if room.gameState = GState.voting then
      { room with
        participants :=
          mapSet participantId { u with selectedCard := some card } room.participants }
    else room

/-- `areAllCardsSelected` (host.ts lines 414-419). -/
def areAllCardsSelected (room : Room) : Bool :=
  let nonHost := (room.participants.map Prod.snd).filter (fun p => !p.isHost && p.connected)
  !(nonHost.length == 0) && nonHost.all (fun p => p.selectedCard.isSome)

/-- The host's full private state: the `Room` (which owns the roster map)
plus the per-participant `connections` map. -/
structure HostState where
  room : Room
  connections : List (String × ConnInfo)
deriving DecidableEq, Repr

/-- The `PlanningPokerHost` constructor (host.ts lines 12-35): one room in
`waiting`, round 1, freshly generated deck (`k` is the random deck draw),
and the host as the only, connected, participant. -/
def mkHost (roomId hostName hostId : String) (k : ℕ) : HostState :=
  { room :=
      { id := roomId, hostId := hostId
        participants := [(hostId,
          { id := hostId, name := hostName, isHost := true, connected := true,
            selectedCard := none })]
        gameState := GState.waiting, cards := generateCardDeck k,
        currentRound := 1, results := none }
    connections := [] }

/-- `removeParticipant` (host.ts lines 264-288): when present, drop the
participant from the roster and close/forget its connection. -/
def removeParticipant (st : HostState) (participantId : String) : HostState :=
  match mapGet participantId st.room.participants with
  | none => st
  | some _ =>
    { room := { st.room with participants := mapDel participantId st.room.participants }
      connections := mapDel participantId st.connections }

/-- The roster effect of `handleConnectionStateChange` (host.ts lines
240-256): when the participant exists, its `connected` flag becomes
`state === 'connected'`.  (The eviction `setTimeout` of lines 257-260 is
modelled by the timed runner below.) -/
def connStateRoster (st : HostState) (participantId : String) (s : PeerConnState) : HostState :=
  match mapGet participantId st.room.participants with
  | none => st
  | some u =>
    { st with
      room := { st.room with
                participants :=
                  mapSet participantId
                    { u with connected := decide (s = PeerConnState.connected) }
                    st.room.participants } }

/-- `handleConnectionStateChange` (host.ts lines 240-261) schedules
`removeParticipant` 5000 ms later exactly on `disconnected` or `failed`. -/
def schedulesRemoval (s : PeerConnState) : Bool :=
  decide (s = PeerConnState.disconnected) || decide (s = PeerConnState.failed)

/-- The grace delay of host.ts line 259 (`setTimeout(..., 5000)`). -/
def graceMs : ℕ := 5000

/-- Host state plus the pending (bare, never cancelled) `setTimeout`
removal timers: `(fire time, participant id)`. -/
structure TimedHost where
  hs : HostState
  timers : List (ℕ × String)
deriving DecidableEq, Repr

/-- Fire every pending removal timer due at or before `now`, in schedule
order (each fired timer runs `removeParticipant`). -/
def fireDueAux (now : ℕ) : List (ℕ × String) → HostState → HostState × List (ℕ × String)
  | [], hs => (hs, [])
  | (t, pid) :: rest, hs =>
    if t ≤ now then fireDueAux now rest (removeParticipant hs pid)
    else
      let r := fireDueAux now rest hs
      (r.1, (t, pid) :: r.2)

/-- `fireDueAux` packaged on `TimedHost`. -/
def fireDue (now : ℕ) (ts : TimedHost) : TimedHost :=
  let r := fireDueAux now ts.timers ts.hs
  ⟨r.1, r.2⟩

/-- A transport connection-state signal delivered at time `t`. -/
structure ConnEvent where
  t : ℕ
  pid : String
  s : PeerConnState
deriving DecidableEq, Repr

/-- Deliver one connection-state event: first fire the timers already due,
then apply the roster update, then (on `disconnected`/`failed`) schedule a
removal at `t + 5000` — a bare timer that nothing ever cancels. -/
def stepEvent (ts : TimedHost) (e : ConnEvent) : TimedHost :=
  let ts := fireDue e.t ts
  let hs := connStateRoster ts.hs e.pid e.s
  if schedulesRemoval e.s then ⟨hs, ts.timers ++ [(e.t + graceMs, e.pid)]⟩
  else ⟨hs, ts.timers⟩

/-- Run a host through a time-ordered event list, then let the clock reach
`endT` (firing whatever timers come due). -/
def runTrace (hs : HostState) (events : List ConnEvent) (endT : ℕ) : TimedHost :=
  fireDue endT (events.foldl stepEvent ⟨hs, []⟩)

/-! ## signaling.ts — descriptor data model

`ConnectionData` / `AnswerData` as in signaling.ts; `RTCSessionDescriptionInit`
is `{type, sdp}` and each `RTCIceCandidateInit` produced by
`ICEManager.getCandidatesAsInit` is `{candidate, sdpMLineIndex, sdpMid,
usernameFragment}` with nullable latter fields. -/

/-- `RTCSessionDescriptionInit`: `{type, sdp}` (the JSON key of `sdType`
is `"type"`). -/
structure SessionDescriptionInit where
  sdType : String
  sdp : String
deriving DecidableEq, Repr

/-- `RTCIceCandidateInit` as built by `getCandidatesAsInit`. -/
structure IceCandidateInit where
  candidate : String
  sdpMLineIndex : Option ℕ
  sdpMid : Option String
  usernameFragment : Option String
deriving DecidableEq, Repr

/-- `ConnectionData` (signaling.ts): the join-code payload. -/
structure ConnectionData where
  offer : SessionDescriptionInit
  iceCandidates : List IceCandidateInit
  roomId : String
  hostName : String
  timestamp : ℤ
deriving DecidableEq, Repr

/-- `AnswerData` (signaling.ts): the response-code payload. -/
structure AnswerData where
  answer : SessionDescriptionInit
  iceCandidates : List IceCandidateInit
  participantName : String
  participantId : String
deriving DecidableEq, Repr

/-- What `JSON.parse` of a response code yields before any field check:
each of the four `AnswerData` fields may be absent. -/
structure PartialAnswerData where
  answer : Option SessionDescriptionInit
  iceCandidates : Option (List IceCandidateInit)
  participantName : Option String
  participantId : Option String
deriving DecidableEq, Repr

/-! ## JSON serialization (`JSON.stringify` on these records)

The serializer produces exactly the canonical text `JSON.stringify` emits
for these object literals (insertion-order keys, no spaces); it performs no
escaping, which is faithful on the validity domain `validCD`/`validAD`
below (strings without `"`, `\` or non-Latin-1/control characters). -/

/-- Decimal digits of a natural number (`JSON.stringify` on a number). -/
def natToChars (n : ℕ) : List Char :=
  if _h : n < 10 then [Char.ofNat (48 + n)]
  else natToChars (n / 10) ++ [Char.ofNat (48 + n % 10)]
termination_by n
decreasing_by simp_wf; omega

/-- Decimal rendering of an integer. -/
def intToChars (i : ℤ) : List Char :=
  if i < 0 then '-' :: natToChars i.natAbs else natToChars i.toNat

/-- A JSON string literal (no escaping; see the validity domain). -/
def quoteStr (s : List Char) : List Char := '"' :: s ++ ['"']

/-- `JSON.stringify` of an `RTCSessionDescriptionInit`. -/
def stringifySD (d : SessionDescriptionInit) : List Char :=
  "\x7b\"type\":".data ++ quoteStr d.sdType.data ++ ",\"sdp\":".data ++
    quoteStr d.sdp.data ++ "\x7d".data

/-- `JSON.stringify` of a nullable number field. -/
def stringifyOptNat : Option ℕ → List Char
  | none => "null".data
  | some n => natToChars n

/-- `JSON.stringify` of a nullable string field. -/
def stringifyOptStr : Option String → List Char
  | none => "null".data
  | some s => quoteStr s.data

/-- `JSON.stringify` of one `RTCIceCandidateInit`. -/
def stringifyCand (c : IceCandidateInit) : List Char :=
  "\x7b\"candidate\":".data ++ quoteStr c.candidate.data ++
    ",\"sdpMLineIndex\":".data ++ stringifyOptNat c.sdpMLineIndex ++
    ",\"sdpMid\":".data ++ stringifyOptStr c.sdpMid ++
    ",\"usernameFragment\":".data ++ stringifyOptStr c.usernameFragment ++ "\x7d".data

/-- Comma-separated candidate array elements. -/
def stringifyCands : List IceCandidateInit → List Char
  | [] => []
  | [c] => stringifyCand c
  | c :: c2 :: rest => stringifyCand c ++ ',' :: stringifyCands (c2 :: rest)

/-- `JSON.stringify` of the candidate array. -/
def stringifyCandList (l : List IceCandidateInit) : List Char :=
  '[' :: stringifyCands l ++ [']']

/-- `JSON.stringify` of a `ConnectionData` literal (key order as in
`generateJoinLink`). -/
def stringifyCD (d : ConnectionData) : List Char :=
  "\x7b\"offer\":".data ++ stringifySD d.offer ++
    ",\"iceCandidates\":".data ++ stringifyCandList d.iceCandidates ++
    ",\"roomId\":".data ++ quoteStr d.roomId.data ++
    ",\"hostName\":".data ++ quoteStr d.hostName.data ++
    ",\"timestamp\":".data ++ intToChars d.timestamp ++ "\x7d".data

/-- `JSON.stringify` of an `AnswerData` literal (key order as in
`joinRoomFromLink`). -/
def stringifyAD (a : AnswerData) : List Char :=
  "\x7b\"answer\":".data ++ stringifySD a.answer ++
    ",\"iceCandidates\":".data ++ stringifyCandList a.iceCandidates ++
    ",\"participantName\":".data ++ quoteStr a.participantName.data ++
    ",\"participantId\":".data ++ quoteStr a.participantId.data ++ "\x7d".data

/-! ## Base64 (`btoa` / `atob`) -/

/-- The base64 alphabet. -/
def b64Alphabet : List Char :=
  "ABCDEFGHIJKLMNOPQRSTUVWXYZabcdefghijklmnopqrstuvwxyz0123456789+/".data

/-- Index to alphabet character. -/
def sextetChar (i : ℕ) : Char := b64Alphabet.getD i 'A'

/-- Position of a character in a list. -/
def charIdxAux : List Char → Char → ℕ → Option ℕ
  | [], _, _ => none
  | a :: as, c, i => if a = c then some i else charIdxAux as c (i + 1)

/-- Alphabet character back to its sextet. -/
def charIdx (c : Char) : Option ℕ := charIdxAux b64Alphabet c 0

/-- `btoa` on a byte list (standard base64 with `=` padding). -/
def b64encode : List ℕ → List Char
  | [] => []
  | [a] => [sextetChar (a / 4), sextetChar (a % 4 * 16), '=', '=']
  | [a, b] =>
    [sextetChar (a / 4), sextetChar (a % 4 * 16 + b / 16), sextetChar (b % 16 * 4), '=']
  | a :: b :: d :: rest =>
    sextetChar (a / 4) :: sextetChar (a % 4 * 16 + b / 16) ::
      sextetChar (b % 16 * 4 + d / 64) :: sextetChar (d % 64) :: b64encode rest

/-- `atob` back to bytes (`none` models the `InvalidCharacterError` throw on
text that is not correctly padded base64). -/
def b64decode : List Char → Option (List ℕ)
  | [] => some []
  | c1 :: c2 :: c3 :: c4 :: rest =>
    match charIdx c1, charIdx c2 with
    | some i1, some i2 =>
      if c3 = '=' then
        if c4 = '=' ∧ rest = [] then some [i1 * 4 + i2 / 16] else none
      else
        match charIdx c3 with
        | some i3 =>
          if c4 = '=' then
            if rest = [] then some [i1 * 4 + i2 / 16, i2 % 16 * 16 + i3 / 4] else none
          else
            match charIdx c4, b64decode rest with
            | some i4, some tl =>
              some ((i1 * 4 + i2 / 16) :: (i2 % 16 * 16 + i3 / 4) :: (i3 % 4 * 64 + i4) :: tl)
            | _, _ => none
        | none => none
    | _, _ => none
  | _ => none

/-- The unpadded base64 body (what survives the `=`-stripping of
`encodeOffer`). -/
def b64body : List ℕ → List Char
  | [] => []
  | [a] => [sextetChar (a / 4), sextetChar (a % 4 * 16)]
  | [a, b] => [sextetChar (a / 4), sextetChar (a % 4 * 16 + b / 16), sextetChar (b % 16 * 4)]
  | a :: b :: d :: rest =>
    sextetChar (a / 4) :: sextetChar (a % 4 * 16 + b / 16) ::
      sextetChar (b % 16 * 4 + d / 64) :: sextetChar (d % 64) :: b64body rest

/-- The `+`/`/` → `-`/`_` substitution of `encodeOffer`. -/
def subChar (c : Char) : Char := if c = '+' then '-' else if c = '/' then '_' else c

/-- The reverse substitution of `decodeOffer`. -/
def unsubChar (c : Char) : Char := if c = '-' then '+' else if c = '_' then '/' else c

/-- `btoa`'s Latin-1 requirement: a JS string encodes only when every char
code is below 256 (otherwise `btoa` throws). -/
def latin1Bytes (l : List Char) : Option (List ℕ) :=
  if l.all (fun c => c.toNat < 256) then some (l.map Char.toNat) else none

/-! ## Parsing (`JSON.parse` specialized to these schemas)

`JSON.parse` is modelled by recursive-descent parsers for exactly the
canonical renderings above (the shape every code produced by the
encoders — the only codes the application itself emits — has).  The
response-code parser `parsePA` additionally accepts records with any
subset of the four fields, which is what lets `validateAnswerCode` be
examined on codes with missing fields. -/

/-- Consume an expected literal prefix. -/
def dropLit : List Char → List Char → Option (List Char)
  | [], s => some s
  | _ :: _, [] => none
  | c :: cs, d :: ds => if c = d then dropLit cs ds else none

/-- Read up to the closing quote (no escape handling; see validity domain). -/
def readQuotedAux : List Char → Option (List Char × List Char)
  | [] => none
  | c :: cs =>
    if c = '"' then some ([], cs)
    else match readQuotedAux cs with
      | some (w, r) => some (c :: w, r)
      | none => none

/-- Read a JSON string literal. -/
def readQuoted : List Char → Option (List Char × List Char)
  | '"' :: cs => readQuotedAux cs
  | _ => none

/-- Read a JSON string literal as a `String`. -/
def readQuotedStr (s : List Char) : Option (String × List Char) :=
  (readQuoted s).map (fun p => (String.mk p.1, p.2))

/-- Accumulate a digit run. -/
def readNatAux : List Char → ℕ → ℕ × List Char
  | [], acc => (acc, [])
  | c :: cs, acc =>
    if c.isDigit then readNatAux cs (acc * 10 + (c.toNat - 48)) else (acc, c :: cs)

/-- Read a nonempty digit run as a natural number. -/
def readNat : List Char → Option (ℕ × List Char)
  | [] => none
  | c :: cs => if c.isDigit then some (readNatAux (c :: cs) 0) else none

/-- Read an optionally negated decimal integer. -/
def readInt : List Char → Option (ℤ × List Char)
  | [] => none
  | c :: cs =>
    if c = '-' then (readNat cs).map (fun p => (-(p.1 : ℤ), p.2))
    else (readNat (c :: cs)).map (fun p => ((p.1 : ℤ), p.2))

/-- Read a number-or-`null` field value. -/
def parseOptNat (s : List Char) : Option (Option ℕ × List Char) :=
  match dropLit "null".data s with
  | some r => some (none, r)
  | none => (readNat s).map (fun p => (some p.1, p.2))

/-- Read a string-or-`null` field value. -/
def parseOptStr (s : List Char) : Option (Option String × List Char) :=
  match dropLit "null".data s with
  | some r => some (none, r)
  | none => (readQuoted s).map (fun p => (some (String.mk p.1), p.2))

/-- Parse one `RTCSessionDescriptionInit` object. -/
def parseSD (s : List Char) : Option (SessionDescriptionInit × List Char) := do
  let s ← dropLit "\x7b\"type\":".data s
  let (t, s) ← readQuoted s
  let s ← dropLit ",\"sdp\":".data s
  let (p, s) ← readQuoted s
  let s ← dropLit "\x7d".data s
  pure (⟨String.mk t, String.mk p⟩, s)

/-- Parse one `RTCIceCandidateInit` object. -/
def parseCand (s : List Char) : Option (IceCandidateInit × List Char) := do
  let s ← dropLit "\x7b\"candidate\":".data s
  let (cand, s) ← readQuoted s
  let s ← dropLit ",\"sdpMLineIndex\":".data s
  let (mli, s) ← parseOptNat s
  let s ← dropLit ",\"sdpMid\":".data s
  let (mid, s) ← parseOptStr s
  let s ← dropLit ",\"usernameFragment\":".data s
  let (uf, s) ← parseOptStr s
  let s ← dropLit "\x7d".data s
  pure (⟨String.mk cand, mli, mid, uf⟩, s)

/-- Parse the nonempty tail of a candidate array (the fuel bounds the
element count; callers pass the input length, which suffices since every
element consumes at least one character). -/
def parseCandsAux : ℕ → List Char → Option (List IceCandidateInit × List Char)
  | 0, _ => none
  | fuel + 1, s => do
    let (c, r) ← parseCand s
    match r with
    | ',' :: r2 => (parseCandsAux fuel r2).map (fun p => (c :: p.1, p.2))
    | ']' :: r2 => pure ([c], r2)
    | _ => none

/-- Parse a candidate array. -/
def parseCandList : List Char → Option (List IceCandidateInit × List Char)
  | '[' :: ']' :: r => some ([], r)
  | '[' :: r => parseCandsAux r.length r
  | _ => none

/-- Parse a full `ConnectionData` rendering (all five fields, whole input). -/
def parseCD (s : List Char) : Option ConnectionData := do
  let s ← dropLit "\x7b\"offer\":".data s
  let (offer, s) ← parseSD s
  let s ← dropLit ",\"iceCandidates\":".data s
  let (cands, s) ← parseCandList s
  let s ← dropLit ",\"roomId\":".data s
  let (rid, s) ← readQuoted s
  let s ← dropLit ",\"hostName\":".data s
  let (hn, s) ← readQuoted s
  let s ← dropLit ",\"timestamp\":".data s
  let (ts, s) ← readInt s
  let s ← dropLit "\x7d".data s
  if s = [] then pure ⟨offer, cands, String.mk rid, String.mk hn, ts⟩ else none

/-- Attempt one optional object field: consume `(, )"key":value` when the
key is present, pass the input through untouched otherwise.  The `Bool`
tracks whether the field would be the first one (no leading comma). -/
def tryField (keyLit : List Char) (pv : List Char → Option (α × List Char))
    (first : Bool) (s : List Char) : Option (Option α × List Char × Bool) :=
  match dropLit ((if first then [] else [',']) ++ keyLit) s with
  | none => some (none, s, first)
  | some r => (pv r).map (fun p => (some p.1, p.2, false))

/-- Parse an `AnswerData` object in which any subset of the four fields may
be present (canonical key order). -/
def parsePA (s : List Char) : Option PartialAnswerData := do
  let s ← dropLit "\x7b".data s
  let (a, s, f) ← tryField "\"answer\":".data parseSD true s
  let (ic, s, f) ← tryField "\"iceCandidates\":".data parseCandList f s
  let (pn, s, f) ← tryField "\"participantName\":".data readQuotedStr f s
  let (pid, s, _) ← tryField "\"participantId\":".data readQuotedStr f s
  let s ← dropLit "\x7d".data s
  if s = [] then pure ⟨a, ic, pn, pid⟩ else none

/-! ## signaling.ts — the `SignalingManager` codecs -/

/-- `SignalingManager.encodeOffer` (signaling.ts lines 637-646):
`btoa(JSON.stringify(d))` with `+→-`, `/→_` and `=` stripped (`none` when
`btoa` would throw on a non-Latin-1 string). -/
def encodeOffer (d : ConnectionData) : Option String :=
  (latin1Bytes (stringifyCD d)).map (fun bs =>
    String.mk (((b64encode bs).map subChar).filter (fun c => !(c == '='))))

/-- `SignalingManager.decodeOffer` (signaling.ts lines 648-659): undo the
URL-safe substitution, restore padding from the length, `atob`, parse. -/
def decodeOffer (s : String) : Option ConnectionData :=
  let u := s.data.map unsubChar
  let padded := u ++ List.replicate ((4 - u.length % 4) % 4) '='
  (b64decode padded).bind (fun bs => parseCD (bs.map Char.ofNat))

/-- `SignalingManager.encodeAnswer` (signaling.ts lines 661-670):
`btoa(JSON.stringify(a))`, padding kept. -/
def encodeAnswer (a : AnswerData) : Option String :=
  (latin1Bytes (stringifyAD a)).map (fun bs => String.mk (b64encode bs))

/-- `atob` + `JSON.parse` of a response code, fields individually
optional — the shape both `decodeAnswer` and `validateAnswerCode` see. -/
def decodePartialAnswer (s : String) : Option PartialAnswerData :=
  (b64decode s.data).bind (fun bs => parsePA (bs.map Char.ofNat))

/-- `SignalingManager.decodeAnswer` (signaling.ts lines 672-681), read at
the `AnswerData` type (all four fields). -/
def decodeAnswer (s : String) : Option AnswerData :=
  (decodePartialAnswer s).bind (fun p =>
    match p.answer, p.iceCandidates, p.participantName, p.participantId with
    | some a, some ic, some n, some i => some ⟨a, ic, n, i⟩
    | _, _, _, _ => none)

/-- JS truthiness of a possibly-missing string (`undefined` and `""` are
falsy). -/
def jsTruthyStr : Option String → Bool
  | none => false
  | some s => !(s == "")

/-- `SignalingManager.validateAnswerCode` (signaling.ts lines 701-710):
decode, then `data.answer && data.participantName && data.participantId` —
three fields, candidate list not among them. -/
def validateAnswerCode (s : String) : Bool :=
  match decodePartialAnswer s with
  | none => false
  | some p => p.answer.isSome && jsTruthyStr p.participantName && jsTruthyStr p.participantId

/-! ## guest.ts — joining from a link -/

/-- The failures of `joinRoomFromLink`. -/
inductive JoinError where
  | malformed | expired
deriving DecidableEq, Repr

/-- `PlanningPokerGuest.joinRoomFromLink` (guest.ts lines 38-92): decode
the join code (a decode throw is caught and re-reported), reject with the
expiry error when `Date.now() - timestamp > 300000`, otherwise return the
encodable answer payload.  The WebRTC answer and gathered candidates are
engine-produced inputs, passed as parameters. -/
def joinRoomFromLink (userName userId : String) (engineAnswer : SessionDescriptionInit)
    (engineCands : List IceCandidateInit) (joinCode : String) (now : ℤ) :
    Except JoinError AnswerData :=
  match decodeOffer joinCode with
  | none => Except.error JoinError.malformed
  | some cd =>
    if now - cd.timestamp > 300000 then Except.error JoinError.expired
    else Except.ok { answer := engineAnswer, iceCandidates := engineCands,
                     participantName := userName, participantId := userId }

/-! ## host.ts — admission -/

/-- The roster/connection insertion performed by `handleNewParticipant`
(host.ts lines 98-123): the participant is stored `connected := false`
with a fresh connection, overwriting any previous entry under the id. -/
def addParticipantConn (st : HostState) (pid pname : String) : HostState :=
  { room := { st.room with
              participants := mapSet pid
                { id := pid, name := pname, isHost := false, connected := false,
                  selectedCard := none } st.room.participants }
    connections := mapSet pid freshConn st.connections }

/-- `PlanningPokerHost.handleNewParticipant` (host.ts lines 69-145):
reject codes failing `validateAnswerCode` (throw, state untouched); when a
connection for the decoded id already exists and `isConnected`, skip
(state untouched); otherwise close any stale connection and insert the
participant and a fresh connection. -/
def handleNewParticipant (st : HostState) (answerCode : String) : HostState :=
  if !validateAnswerCode answerCode then st
  else match decodePartialAnswer answerCode with
    | none => st
    | some p =>
      let pid := p.participantId.getD ""
      let pname := p.participantName.getD ""
      match mapGet pid st.connections with
      | some c => if isConnected c then st else addParticipantConn st pid pname
      | none => addParticipantConn st pid pname

/-! ## Validity domain for the codec round-trip

`JSON.stringify` escapes `"`, `\` and control characters and `btoa` only
accepts Latin-1 input; the serializer above performs no escaping, so the
round-trip theorems are stated over descriptors whose strings need none:
every character printable Latin-1 and neither `"` nor `\`. -/

/-- A character needing no JSON escaping that `btoa` accepts. -/
def charOK (c : Char) : Bool :=
  decide (32 ≤ c.toNat) && decide (c.toNat < 256) && !(c == '"') && !(c == '\\')

/-- All characters of a string are `charOK`. -/
def strOK (s : String) : Bool := s.data.all charOK

/-- `strOK` lifted to nullable strings. -/
def optStrOK : Option String → Bool
  | none => true
  | some s => strOK s

/-- Validity of one candidate's strings. -/
def candOK (c : IceCandidateInit) : Bool :=
  strOK c.candidate && optStrOK c.sdpMid && optStrOK c.usernameFragment

/-- Validity of a session description's strings. -/
def sdOK (d : SessionDescriptionInit) : Bool := strOK d.sdType && strOK d.sdp

/-- A valid (encodable, escaping-free) `ConnectionData`. -/
def validCD (d : ConnectionData) : Bool :=
  sdOK d.offer && d.iceCandidates.all candOK && strOK d.roomId && strOK d.hostName

/-- A valid (encodable, escaping-free) `AnswerData`. -/
def validAD (a : AnswerData) : Bool :=
  sdOK a.answer && a.iceCandidates.all candOK && strOK a.participantName &&
    strOK a.participantId

/-! ## +page.svelte — gating predicates and host controls -/

/-- `canStartVoting` (+page.svelte line 56):
`room?.gameState === 'waiting' && room.participants.size > 1`. -/
def canStartVoting (room : Room) : Bool :=
  decide (room.gameState = GState.waiting) && decide (mapSize room.participants > 1)

/-- The page's `startVoting` handler body (+page.svelte lines 229-232): it
calls `changeGameState('voting')` with no participant-count check of its
own. -/
def pageStartVoting (room : Room) : Room := changeGameState room GState.voting

/-- A click on the start-voting control: the button carries
`disabled={!canStartVoting}`, so the handler only ever runs when
`canStartVoting` holds. -/
def uiStartVoting (room : Room) : Room :=
  if canStartVoting room then pageStartVoting room else room

/-! ## Concrete instances used by the closed theorems below -/

/-- A host roster entry. -/
def hostUser : User :=
  { id := "H", name := "h", isHost := true, connected := true, selectedCard := none }

/-- The initial room of a freshly constructed host (deck draw 0). -/
def roomW : Room := (mkHost "r" "h" "H" 0).room

/-- A three-voter room in the `voting` phase: A voted `"3"`, B voted
`"1/2"`, C voted `"?"`. -/
def roomC1 : Room :=
  { roomW with
    gameState := GState.voting
    participants :=
      [("H", hostUser),
       ("A", { id := "A", name := "a", isHost := false, connected := true,
               selectedCard := some "3" }),
       ("B", { id := "B", name := "b", isHost := false, connected := true,
               selectedCard := some "1/2" }),
       ("C", { id := "C", name := "c", isHost := false, connected := true,
               selectedCard := some "?" })] }

/-- A connected guest roster entry. -/
def guestB : User :=
  { id := "B", name := "b", isHost := false, connected := true, selectedCard := none }

/-- A fully connected transport. -/
def connUp : ConnInfo :=
  { cs := PeerConnState.connected, ics := IceConnState.connected,
    dcs := some DataChState.dcOpen }

/-- Host with one connected guest `B`, used for the timing traces. -/
def hostWithB : HostState :=
  { room := { roomW with participants := [("H", hostUser), ("B", guestB)] }
    connections := [("B", connUp)] }

/-- B's transport drops at t=1000 and recovers at t=2000 (before the
5000 ms grace timer fires at t=6000). -/
def evsRecover : List ConnEvent :=
  [⟨1000, "B", PeerConnState.disconnected⟩, ⟨2000, "B", PeerConnState.connected⟩]

/-- B's transport drops at t=1000 and never recovers. -/
def evsDrop : List ConnEvent := [⟨1000, "B", PeerConnState.disconnected⟩]

/-- A valid offer descriptor with creation time 99000 (301000 ms before
the probe time 400000). -/
def cdOld : ConnectionData :=
  { offer := { sdType := "offer", sdp := "v" }
    iceCandidates := [{ candidate := "c", sdpMLineIndex := some 0,
                        sdpMid := some "0", usernameFragment := none }]
    roomId := "R", hostName := "h", timestamp := 99000 }

/-- The same descriptor created at 101000 (299000 ms before 400000). -/
def cdNew : ConnectionData := { cdOld with timestamp := 101000 }

/-- The encoded join code of `cdOld`. -/
def joinCodeOld : String := (encodeOffer cdOld).getD ""

/-- The encoded join code of `cdNew`. -/
def joinCodeNew : String := (encodeOffer cdNew).getD ""

/-- A valid answer descriptor. -/
def adW : AnswerData :=
  { answer := { sdType := "answer", sdp := "w" }
    iceCandidates := [{ candidate := "c2", sdpMLineIndex := none,
                        sdpMid := none, usernameFragment := some "u" }]
    participantName := "n", participantId := "B" }

/-- The JSON text of a response code that carries `answer`,
`participantName` and `participantId` but no `iceCandidates` field. -/
def paJson : List Char :=
  ("\x7b\"answer\":\x7b\"type\":\"answer\",\"sdp\":\"w\"\x7d," ++
    "\"participantName\":\"n\",\"participantId\":\"B\"\x7d").data

/-- The base64 response code of `paJson` (what `btoa` produces on it). -/
def paCode : String := String.mk (b64encode (paJson.map Char.toNat))

/-- What `paCode` decodes to: the candidate-list field is absent. -/
def paDecoded : PartialAnswerData :=
  { answer := some { sdType := "answer", sdp := "w" }
    iceCandidates := none
    participantName := some "n", participantId := some "B" }

/-! ## Map lemmas -/

theorem mem_keys_mapSet {α : Type} (k x : String) (v : α) (m : List (String × α)) :
    x ∈ (mapSet k v m).map Prod.fst ↔ x = k ∨ x ∈ m.map Prod.fst := by
  induction m with
  | nil => simp [mapSet]
  | cons e t ih =>
    obtain ⟨k', v'⟩ := e
    by_cases h : k' = k
    · subst h
      simp [mapSet]
    · simp only [mapSet, if_neg h, List.map_cons, List.mem_cons, ih]
      tauto

theorem keysNodup_mapSet {α : Type} (k : String) (v : α) (m : List (String × α))
    (h : keysNodup m) : keysNodup (mapSet k v m) := by
  induction m with
  | nil => simp [keysNodup, mapSet]
  | cons e t ih =>
    obtain ⟨k', v'⟩ := e
    simp only [keysNodup, List.map_cons, List.nodup_cons] at h
    by_cases hk : k' = k
    · subst hk
      simpa [keysNodup, mapSet] using h
    · have ht := ih h.2
      simp only [keysNodup, mapSet, if_neg hk, List.map_cons, List.nodup_cons]
      refine ⟨fun hmem => ?_, ht⟩
      rcases (mem_keys_mapSet k k' v t).1 hmem with h1 | h1
      · exact hk h1
      · exact h.1 h1

theorem countKey_le_one {α : Type} (x : String) (m : List (String × α))
    (h : keysNodup m) : countKey x m ≤ 1 :=
  List.nodup_iff_count_le_one.1 h x

theorem keysNodup_addParticipantConn (st : HostState) (pid pname : String)
    (h : keysNodup st.room.participants) :
    keysNodup (addParticipantConn st pid pname).room.participants := by
  exact keysNodup_mapSet _ _ _ h

theorem keysNodup_handleNewParticipant (st : HostState) (code : String)
    (h : keysNodup st.room.participants) :
    keysNodup (handleNewParticipant st code).room.participants := by
  unfold handleNewParticipant
  split
  · exact h
  · split
    · exact h
    · dsimp only
      split
      · split
        · exact h
        · exact keysNodup_addParticipantConn _ _ _ h
      · exact keysNodup_addParticipantConn _ _ _ h

theorem keysNodup_foldl_handleNewParticipant (codes : List String) (st : HostState)
    (h : keysNodup st.room.participants) :
    keysNodup ((codes.foldl handleNewParticipant st).room.participants) := by
  induction codes generalizing st with
  | nil => exact h
  | cons c t ih => exact ih _ (keysNodup_handleNewParticipant st c h)

theorem keysNodup_mkHost (roomId hostName hostId : String) (k : ℕ) :
    keysNodup (mkHost roomId hostName hostId k).room.participants := by
  simp [keysNodup, mkHost]

/-! ## Claims about the session state machine and deck -/

/-- C10: every deck produced by `generateCardDeck` has exactly 13 entries —
the fixed ordered sequence `1/4, 1/2, 1 … 9, ?` followed by exactly one
element of the food-emoji pool — hence exactly one `?` wildcard and exactly
one food-emoji off-scale token. -/
theorem generateCardDeck_shape (k : ℕ) :
    (generateCardDeck k).length = 13 ∧
    (generateCardDeck k).take 12 = baseCards ∧
    (∃ food ∈ foodEmojis, generateCardDeck k = baseCards ++ [food]) ∧
    (generateCardDeck k).count "?" = 1 ∧
    (generateCardDeck k).countP (fun c => isFoodEmoji c) = 1 := by
  have hfood : foodEmojis.get ⟨k % foodEmojis.length,
      Nat.mod_lt _ (by simp [foodEmojis])⟩ ∈ foodEmojis := List.get_mem _ _ _
  have hisfood : isFoodEmoji (foodEmojis.get ⟨k % foodEmojis.length,
      Nat.mod_lt _ (by simp [foodEmojis])⟩) = true := by
    unfold isFoodEmoji
    exact List.elem_iff.mpr hfood
  have hnq : ¬("?" ∈ ([foodEmojis.get ⟨k % foodEmojis.length,
      Nat.mod_lt _ (by simp [foodEmojis])⟩] : List String)) := by
    intro hq
    rw [List.mem_singleton] at hq
    rw [← hq] at hfood
    revert hfood
    decide
  refine ⟨by simp [generateCardDeck, baseCards], ?_, ⟨_, hfood, rfl⟩, ?_, ?_⟩
  · show (baseCards ++ _).take 12 = baseCards
    have h12 : (12 : ℕ) = baseCards.length := by decide
    rw [h12, List.take_left]
  · rw [generateCardDeck, List.count_append]
    have h1 : List.count "?" baseCards = 1 := by decide
    have h0 : List.count "?" [foodEmojis.get ⟨k % foodEmojis.length,
        Nat.mod_lt _ (by simp [foodEmojis])⟩] = 0 := List.count_eq_zero.mpr hnq
    omega
  · rw [generateCardDeck, List.countP_append]
    have h0 : baseCards.countP (fun c => isFoodEmoji c) = 0 := by decide
    have h1 : List.countP (fun c => isFoodEmoji c) [foodEmojis.get ⟨k % foodEmojis.length,
        Nat.mod_lt _ (by simp [foodEmojis])⟩] = 1 := by
      simp only [List.countP_cons, List.countP_nil, hisfood]
      simp
    omega

/-- C8 counterexample: with transport state `connected` but the data
channel `closed`, the spec's disjunctive predicate holds while the code's
`isConnected` is false — transport-reported `connected` alone is not
sufficient. -/
theorem isConnected_requires_channel :
    specConnected { cs := PeerConnState.connected, ics := IceConnState.disconnected,
                    dcs := some DataChState.dcClosed } = true ∧
    isConnected { cs := PeerConnState.connected, ics := IceConnState.disconnected,
                  dcs := some DataChState.dcClosed } = false := by decide

/-- C8 (amended): `isConnected` is the conjunction — (transport `connected`
OR ICE `connected`) AND (data channel `open`, `connecting`, or absent) —
so transport-reported `connected` is not sufficient on its own: the channel
must not be closing/closed. -/
theorem isConnected_characterization (c : ConnInfo) :
    isConnected c = true ↔
      ((c.cs = PeerConnState.connected ∨ c.ics = IceConnState.connected) ∧
        (c.dcs = some DataChState.dcOpen ∨ c.dcs = some DataChState.dcConnecting ∨
          c.dcs = none)) := by
  simp only [isConnected, Bool.and_eq_true, Bool.or_eq_true, decide_eq_true_eq, or_assoc]

/-- C2 counterexample: from the freshly created room (phase `waiting`,
host only), requesting the non-legal transition `waiting → revealed`
does not leave the session state unchanged. -/
theorem changeGameState_not_gated :
    changeGameState roomW GState.revealed ≠ roomW ∧
    roomW.gameState = GState.waiting := by decide

/-- C2 (amended): `changeGameState` performs every requested transition
unconditionally — the phase always becomes the target (with `voting`
clearing non-host selections and `revealed` computing results); no
(current, target) pair is rejected and no error is raised; the three legal
transitions are enforced only by the callers' gating predicates. -/
theorem changeGameState_always_transitions (room : Room) (t : GState) :
    (changeGameState room t).gameState = t := by
  cases t <;> simp [changeGameState, calculateResults]

/-- C9 counterexample: with only the host in the roster (participant count
1) and phase `waiting`, the page's `startVoting` handler body — which calls
`changeGameState('voting')` with no count check of its own — changes the
session state. -/
theorem pageStartVoting_not_gated :
    pageStartVoting roomW ≠ roomW ∧ roomW.gameState = GState.waiting ∧
    mapSize roomW.participants = 1 := by decide

/-- C9 (amended): the start-voting request is gated in the UI by
`canStartVoting` (phase `waiting` and more than one participant): at
participant count ≤ 1 the control is disabled, so a click leaves the
session state unchanged; the underlying `changeGameState('voting')`
itself performs the transition regardless of the count (see the
counterexample). -/
theorem uiStartVoting_noop_when_few (room : Room)
    (h : mapSize room.participants ≤ 1) :
    canStartVoting room = false ∧ uiStartVoting room = room := by
  have hc : canStartVoting room = false := by
    unfold canStartVoting
    have hn : ¬ mapSize room.participants > 1 := by omega
    simp [hn]
  exact ⟨hc, by simp [uiStartVoting, hc]⟩

/-- C9 witness: the freshly created host room instantiates the amended
claim. -/
theorem uiStartVoting_noop_when_few_witness :
    mapSize roomW.participants ≤ 1 ∧
      (canStartVoting roomW = false ∧ uiStartVoting roomW = roomW) :=
  ⟨by decide, uiStartVoting_noop_when_few roomW (by decide)⟩

/-- C7 (code bug): guest B's transport reports `disconnected` at t=1000 and
recovers (`connected`) at t=2000, well before the 5000 ms grace timer
fires at t=6000 — the roster flag says connected again — yet because the
`setTimeout` scheduled at the disconnect is never cancelled, B is evicted
when the timer fires anyway.  The timing of the never-recovers half is as
specified: still present at t=5999, removed at t=6000 = t0 + grace. -/
theorem eviction_timer_not_cancelled_on_recovery :
    ((mapGet "B" ((evsRecover.foldl stepEvent ⟨hostWithB, []⟩).hs.room.participants)).map
        User.connected = some true) ∧
    mapGet "B" ((runTrace hostWithB evsRecover 5999).hs.room.participants) ≠ none ∧
    mapGet "B" ((runTrace hostWithB evsRecover 7000).hs.room.participants) = none ∧
    mapGet "B" ((runTrace hostWithB evsDrop 5999).hs.room.participants) ≠ none ∧
    mapGet "B" ((runTrace hostWithB evsDrop 6000).hs.room.participants) = none := by decide

/-- C6: submitting the same response code to `handleNewParticipant` any
number of times never yields two roster entries for the carried
participant id — the roster is a keyed map and admission inserts by key. -/
theorem handleNewParticipant_idempotent_roster
    (roomId hostName hostId code pid : String) (k n : ℕ) :
    countKey pid (((List.replicate n code).foldl handleNewParticipant
      (mkHost roomId hostName hostId k)).room.participants) ≤ 1 :=
  countKey_le_one _ _
    (keysNodup_foldl_handleNewParticipant _ _ (keysNodup_mkHost _ _ _ _))

/-- C1 counterexample: on the vote multiset `{"3", "1/2", "?"}` the host's
reveal stores `average = 1.8`, not the claimed mean `1.75` — the exact mean
`7/4` is rounded by the `toFixed(1)` formatting before being stored. -/
theorem results_average_is_rounded :
    (changeGameState roomC1 GState.revealed).results =
      some { average := 9 / 5, total := 7 / 2, votes := ["3", "1/2", "?"] } ∧
    ((9 : ℚ) / 5) ≠ 7 / 4 := by
  constructor
  · simp [changeGameState, calculateResults, calculateStats, numericVotesOf, isFoodEmoji,
      foodEmojis, jsParseFloat, roomC1, roomW, mkHost, hostUser, round1]
    norm_num
  · norm_num

/-- C1 (amended): on `{"3", "1/2", "?"}` the numeric aggregate is
`[3, 0.5]` (the `"?"` excluded from both the count and the sum), the sum is
`3.5`, the exact mean over the aggregate is `1.75`, and the computation
stores that mean rounded to one decimal, `1.8 = round1 (7/4)`. -/
theorem results_on_three_votes :
    numericVotesOf ["3", "1/2", "?"] = [3, 1 / 2] ∧
    (calculateStats [("A", "3"), ("B", "1/2"), ("C", "?")]).numericCount = 2 ∧
    (calculateStats [("A", "3"), ("B", "1/2"), ("C", "?")]).questionCount = 1 ∧
    (calculateStats [("A", "3"), ("B", "1/2"), ("C", "?")]).total = 7 / 2 ∧
    (numericVotesOf ["3", "1/2", "?"]).sum / 2 = 7 / 4 ∧
    (calculateStats [("A", "3"), ("B", "1/2"), ("C", "?")]).average = round1 (7 / 4) ∧
    round1 (7 / 4) = 9 / 5 ∧
    (changeGameState roomC1 GState.revealed).results =
      some { average := round1 (7 / 4), total := 7 / 2, votes := ["3", "1/2", "?"] } := by
  refine ⟨?_, ?_, ?_, ?_, ?_, ?_, ?_, ?_⟩
  · simp [numericVotesOf, isFoodEmoji, foodEmojis, jsParseFloat]
  · simp [calculateStats, numericVotesOf, isFoodEmoji, foodEmojis, jsParseFloat]
  · simp [calculateStats, numericVotesOf, isFoodEmoji, foodEmojis, jsParseFloat]
  · simp [calculateStats, numericVotesOf, isFoodEmoji, foodEmojis, jsParseFloat, round1]
    norm_num
  · simp [numericVotesOf, isFoodEmoji, foodEmojis, jsParseFloat]
    norm_num
  · simp [calculateStats, numericVotesOf, isFoodEmoji, foodEmojis, jsParseFloat, round1]
    norm_num
  · simp [round1]
    norm_num
  · simp [changeGameState, calculateResults, calculateStats, numericVotesOf, isFoodEmoji,
      foodEmojis, jsParseFloat, roomC1, roomW, mkHost, hostUser, round1]
    norm_num

/-! ## Base64 round-trip -/

theorem charIdx_sextetChar (i : ℕ) (h : i < 64) : charIdx (sextetChar i) = some i := by
  have hall : ∀ j, j < 64 → charIdx (sextetChar j) = some j := by decide
  exact hall i h

theorem sextetChar_ne_pad (i : ℕ) (h : i < 64) : sextetChar i ≠ '=' := by
  have hall : ∀ j, j < 64 → sextetChar j ≠ '=' := by decide
  exact hall i h

theorem unsub_sub_sextetChar (i : ℕ) (h : i < 64) :
    unsubChar (subChar (sextetChar i)) = sextetChar i := by
  have hall : ∀ j, j < 64 → unsubChar (subChar (sextetChar j)) = sextetChar j := by decide
  exact hall i h

theorem subChar_sextet_ne_pad (i : ℕ) (h : i < 64) : subChar (sextetChar i) ≠ '=' := by
  have hall : ∀ j, j < 64 → subChar (sextetChar j) ≠ '=' := by decide
  exact hall i h

theorem b64decode_b64encode :
    ∀ bs : List ℕ, (∀ b ∈ bs, b < 256) → b64decode (b64encode bs) = some bs
  | [], _ => rfl
  | [a], h => by
    have ha : a < 256 := h a (by simp)
    have h1 : a / 4 < 64 := by omega
    have h2 : a % 4 * 16 < 64 := by omega
    simp [b64encode, b64decode, charIdx_sextetChar _ h1, charIdx_sextetChar _ h2]
    omega
  | [a, b], h => by
    have ha : a < 256 := h a (by simp)
    have hb : b < 256 := h b (by simp)
    have h1 : a / 4 < 64 := by omega
    have h2 : a % 4 * 16 + b / 16 < 64 := by omega
    have h3 : b % 16 * 4 < 64 := by omega
    simp [b64encode, b64decode, charIdx_sextetChar _ h1, charIdx_sextetChar _ h2,
      charIdx_sextetChar _ h3, sextetChar_ne_pad _ h3]
    omega
  | a :: b :: d :: rest, h => by
    have ha : a < 256 := h a (by simp)
    have hb : b < 256 := h b (by simp)
    have hd : d < 256 := h d (by simp)
    have h1 : a / 4 < 64 := by omega
    have h2 : a % 4 * 16 + b / 16 < 64 := by omega
    have h3 : b % 16 * 4 + d / 64 < 64 := by omega
    have h4 : d % 64 < 64 := by omega
    have ih := b64decode_b64encode rest (fun x hx => h x (by simp [hx]))
    simp [b64encode, b64decode, charIdx_sextetChar _ h1, charIdx_sextetChar _ h2,
      charIdx_sextetChar _ h3, charIdx_sextetChar _ h4, sextetChar_ne_pad _ h3,
      sextetChar_ne_pad _ h4, ih]
    omega

theorem url_strip_b64encode :
    ∀ bs : List ℕ, (∀ b ∈ bs, b < 256) →
      ((((b64encode bs).map subChar).filter (fun c => !(c == '='))).map unsubChar) = b64body bs
  | [], _ => rfl
  | [a], h => by
    have ha : a < 256 := h a (by simp)
    have h1 : a / 4 < 64 := by omega
    have h2 : a % 4 * 16 < 64 := by omega
    have hp : subChar '=' = '=' := rfl
    simp [b64encode, b64body, subChar_sextet_ne_pad _ h1, subChar_sextet_ne_pad _ h2,
      unsub_sub_sextetChar _ h1, unsub_sub_sextetChar _ h2, hp]
  | [a, b], h => by
    have ha : a < 256 := h a (by simp)
    have hb : b < 256 := h b (by simp)
    have h1 : a / 4 < 64 := by omega
    have h2 : a % 4 * 16 + b / 16 < 64 := by omega
    have h3 : b % 16 * 4 < 64 := by omega
    have hp : subChar '=' = '=' := rfl
    simp [b64encode, b64body, subChar_sextet_ne_pad _ h1, subChar_sextet_ne_pad _ h2,
      subChar_sextet_ne_pad _ h3, unsub_sub_sextetChar _ h1, unsub_sub_sextetChar _ h2,
      unsub_sub_sextetChar _ h3, hp]
  | a :: b :: d :: rest, h => by
    have ha : a < 256 := h a (by simp)
    have hb : b < 256 := h b (by simp)
    have hd : d < 256 := h d (by simp)
    have h1 : a / 4 < 64 := by omega
    have h2 : a % 4 * 16 + b / 16 < 64 := by omega
    have h3 : b % 16 * 4 + d / 64 < 64 := by omega
    have h4 : d % 64 < 64 := by omega
    have ih := url_strip_b64encode rest (fun x hx => h x (by simp [hx]))
    simp [b64encode, b64body, subChar_sextet_ne_pad _ h1, subChar_sextet_ne_pad _ h2,
      subChar_sextet_ne_pad _ h3, subChar_sextet_ne_pad _ h4, unsub_sub_sextetChar _ h1,
      unsub_sub_sextetChar _ h2, unsub_sub_sextetChar _ h3, unsub_sub_sextetChar _ h4, ih]

theorem b64body_pad :
    ∀ bs : List ℕ,
      b64body bs ++ List.replicate ((4 - (b64body bs).length % 4) % 4) '=' = b64encode bs
  | [] => rfl
  | [a] => rfl
  | [a, b] => rfl
  | a :: b :: d :: rest => by
    have ih := b64body_pad rest
    simp only [b64body, b64encode, List.length_cons, List.cons_append]
    have hm : ((b64body rest).length + 1 + 1 + 1 + 1) % 4 = (b64body rest).length % 4 := by
      omega
    rw [hm, ih]

/-! ## Parser round-trips -/

theorem dropLit_append (l r : List Char) : dropLit l (l ++ r) = some r := by
  induction l with
  | nil => rfl
  | cons c cs ih => simp [dropLit, ih]

theorem readQuotedAux_append (w r : List Char) (hw : '"' ∉ w) :
    readQuotedAux (w ++ '"' :: r) = some (w, r) := by
  induction w with
  | nil => simp [readQuotedAux]
  | cons c cs ih =>
    have hc : ¬(c = '"') := fun h => hw (by simp [h])
    have hcs : '"' ∉ cs := fun h => hw (List.mem_cons_of_mem _ h)
    simp [readQuotedAux, hc, ih hcs]

theorem readQuoted_quoteStr (w r : List Char) (hw : '"' ∉ w) :
    readQuoted (quoteStr w ++ r) = some (w, r) := by
  have h1 : quoteStr w ++ r = '"' :: (w ++ '"' :: r) := by simp [quoteStr]
  rw [h1]
  simp [readQuoted, readQuotedAux_append w r hw]

theorem readQuotedStr_quoteStr (s : String) (r : List Char) (hw : '"' ∉ s.data) :
    readQuotedStr (quoteStr s.data ++ r) = some (s, r) := by
  simp [readQuotedStr, readQuoted_quoteStr _ _ hw]

theorem digitChar_facts (k : ℕ) (h : k < 10) :
    (Char.ofNat (48 + k)).toNat = 48 + k ∧ (Char.ofNat (48 + k)).isDigit = true := by
  have hall : ∀ j, j < 10 →
      (Char.ofNat (48 + j)).toNat = 48 + j ∧ (Char.ofNat (48 + j)).isDigit = true := by decide
  exact hall k h

theorem natToChars_digits (n : ℕ) : ∀ c ∈ natToChars n, c.isDigit = true := by
  induction n using Nat.strong_induction_on with
  | _ n ih =>
    rw [natToChars]
    split
    · rename_i h
      intro c hc
      simp only [List.mem_singleton] at hc
      subst hc
      exact (digitChar_facts n h).2
    · rename_i h
      intro c hc
      rcases List.mem_append.1 hc with h1 | h1
      · exact ih (n / 10) (by omega) c h1
      · simp only [List.mem_singleton] at h1
        subst h1
        exact (digitChar_facts (n % 10) (by omega)).2

theorem natToChars_lt256 (n : ℕ) : ∀ c ∈ natToChars n, c.toNat < 256 := by
  induction n using Nat.strong_induction_on with
  | _ n ih =>
    rw [natToChars]
    split
    · rename_i h
      intro c hc
      simp only [List.mem_singleton] at hc
      subst hc
      have := (digitChar_facts n h).1
      omega
    · rename_i h
      intro c hc
      rcases List.mem_append.1 hc with h1 | h1
      · exact ih (n / 10) (by omega) c h1
      · simp only [List.mem_singleton] at h1
        subst h1
        have := (digitChar_facts (n % 10) (by omega)).1
        omega

theorem natToChars_structure (n : ℕ) :
    ∃ c cs, natToChars n = c :: cs ∧ c.isDigit = true := by
  induction n using Nat.strong_induction_on with
  | _ n ih =>
    rw [natToChars]
    split
    · rename_i h
      exact ⟨_, [], rfl, (digitChar_facts n h).2⟩
    · rename_i h
      obtain ⟨c, cs, hEq, hd⟩ := ih (n / 10) (by omega)
      rw [hEq]
      exact ⟨c, cs ++ [Char.ofNat (48 + n % 10)], by simp, hd⟩

theorem isDigit_ne_of (c x : Char) (h : c.isDigit = true) (hx : x.isDigit = false) :
    c ≠ x := by
  intro he
  subst he
  rw [h] at hx
  cases hx

theorem readNatAux_digits_run (A : List Char) (hA : ∀ c ∈ A, c.isDigit = true) :
    ∀ (t : List Char) (acc : ℕ),
      readNatAux (A ++ t) acc
        = readNatAux t (A.foldl (fun a c => a * 10 + (c.toNat - 48)) acc) := by
  induction A with
  | nil => intro t acc; simp
  | cons c cs ih =>
    intro t acc
    have hc := hA c (by simp)
    simp [readNatAux, hc, ih (fun x hx => hA x (by simp [hx]))]

theorem readNatAux_stop (c : Char) (hc : c.isDigit = false) (r : List Char) (acc : ℕ) :
    readNatAux (c :: r) acc = (acc, c :: r) := by
  simp [readNatAux, hc]

theorem foldl_digits_natToChars (n : ℕ) :
    ∀ acc, (natToChars n).foldl (fun a c => a * 10 + (c.toNat - 48)) acc
      = acc * 10 ^ (natToChars n).length + n := by
  induction n using Nat.strong_induction_on with
  | _ n ih =>
    intro acc
    rw [natToChars]
    split
    · rename_i h
      simp only [List.foldl_cons, List.foldl_nil, List.length_cons, List.length_nil,
        (digitChar_facts n h).1, pow_one]
      omega
    · rename_i h
      rw [List.foldl_append]
      simp only [List.foldl_cons, List.foldl_nil, (digitChar_facts (n % 10) (by omega)).1,
        List.length_append, List.length_cons, List.length_nil]
      rw [ih (n / 10) (by omega) acc]
      rw [show (natToChars (n / 10)).length + (0 + 1) = (natToChars (n / 10)).length + 1
        by omega]
      rw [pow_succ]
      ring_nf
      omega

theorem readNat_natToChars (n : ℕ) (c : Char) (hc : c.isDigit = false) (r : List Char) :
    readNat (natToChars n ++ c :: r) = some (n, c :: r) := by
  obtain ⟨d, ds, hEq, hd⟩ := natToChars_structure n
  have hall : ∀ x ∈ d :: ds, x.isDigit = true := by
    rw [← hEq]; exact natToChars_digits n
  rw [hEq]
  simp only [List.cons_append]
  rw [show readNat (d :: (ds ++ c :: r))
      = if d.isDigit then some (readNatAux (d :: (ds ++ c :: r)) 0) else none from rfl]
  rw [if_pos hd]
  rw [show d :: (ds ++ c :: r) = (d :: ds) ++ (c :: r) by simp]
  rw [readNatAux_digits_run _ hall, readNatAux_stop c hc]
  rw [← hEq, foldl_digits_natToChars]
  simp

theorem readInt_intToChars (i : ℤ) (c : Char) (hc : c.isDigit = false) (r : List Char) :
    readInt (intToChars i ++ c :: r) = some (i, c :: r) := by
  by_cases hi : i < 0
  · rw [intToChars, if_pos hi]
    simp only [List.cons_append]
    rw [show readInt ('-' :: (natToChars i.natAbs ++ c :: r))
        = (readNat (natToChars i.natAbs ++ c :: r)).map (fun p => (-(p.1 : ℤ), p.2)) from rfl]
    rw [readNat_natToChars _ _ hc]
    have hni : -((i.natAbs : ℤ)) = i := by omega
    simp [hni]
    rw [abs_of_nonpos (by omega : i ≤ 0), neg_neg]
  · rw [intToChars, if_neg hi]
    obtain ⟨d, ds, hEq, hd⟩ := natToChars_structure i.toNat
    have hdm : ¬(d = '-') := isDigit_ne_of d '-' hd (by decide)
    rw [hEq]
    simp only [List.cons_append]
    rw [show readInt (d :: (ds ++ c :: r))
        = if d = '-' then (readNat (ds ++ c :: r)).map (fun p => (-(p.1 : ℤ), p.2))
          else (readNat (d :: (ds ++ c :: r))).map (fun p => ((p.1 : ℤ), p.2)) from rfl]
    rw [if_neg hdm]
    rw [show d :: (ds ++ c :: r) = (d :: ds) ++ (c :: r) by simp, ← hEq]
    rw [readNat_natToChars _ _ hc]
    simp [Int.toNat_of_nonneg (by omega : (0 : ℤ) ≤ i)]

theorem parseOptNat_none (r : List Char) : parseOptNat ("null".data ++ r) = some (none, r) := by
  simp [parseOptNat, dropLit]

theorem parseOptNat_some (n : ℕ) (c : Char) (hc : c.isDigit = false) (r : List Char) :
    parseOptNat (natToChars n ++ c :: r) = some (some n, c :: r) := by
  obtain ⟨d, ds, hEq, hd⟩ := natToChars_structure n
  have hdn : ¬('n' = d) := fun hh => isDigit_ne_of d 'n' hd (by decide) hh.symm
  have hfail : dropLit "null".data (natToChars n ++ c :: r) = none := by
    rw [hEq]
    simp only [List.cons_append]
    simp [dropLit, hdn]
  simp [parseOptNat, hfail, readNat_natToChars n c hc r]

theorem parseOptStr_none (r : List Char) : parseOptStr ("null".data ++ r) = some (none, r) := by
  simp [parseOptStr, dropLit]

theorem parseOptStr_some (s : String) (hs : '"' ∉ s.data) (r : List Char) :
    parseOptStr (quoteStr s.data ++ r) = some (some s, r) := by
  have hfail : dropLit "null".data (quoteStr s.data ++ r) = none := by
    rw [show quoteStr s.data ++ r = '"' :: (s.data ++ '"' :: r) by simp [quoteStr]]
    simp [dropLit]
  simp [parseOptStr, hfail, readQuoted_quoteStr _ _ hs]

theorem strOK_no_quote (s : String) (h : strOK s = true) : '"' ∉ s.data := by
  intro hq
  have hc := (List.all_eq_true.1 h) _ hq
  simp [charOK] at hc

theorem strOK_lt256 (s : String) (h : strOK s = true) : ∀ c ∈ s.data, c.toNat < 256 := by
  intro c hc
  have hAll := (List.all_eq_true.1 h) _ hc
  simp only [charOK, Bool.and_eq_true, decide_eq_true_eq] at hAll
  exact hAll.1.1.2

theorem parseSD_stringifySD (d : SessionDescriptionInit) (h : sdOK d = true)
    (r : List Char) : parseSD (stringifySD d ++ r) = some (d, r) := by
  simp only [sdOK, Bool.and_eq_true] at h
  have hq1 := strOK_no_quote _ h.1
  have hq2 := strOK_no_quote _ h.2
  simp only [stringifySD, List.append_assoc]
  simp [parseSD, dropLit, readQuoted_quoteStr _ _ hq1, readQuoted_quoteStr _ _ hq2]


theorem parseOptNat_null (r : List Char) :
    parseOptNat ('n' :: 'u' :: 'l' :: 'l' :: r) = some (none, r) := by
  simp [parseOptNat, dropLit]

theorem parseOptStr_null (r : List Char) :
    parseOptStr ('n' :: 'u' :: 'l' :: 'l' :: r) = some (none, r) := by
  simp [parseOptStr, dropLit]


set_option maxHeartbeats 2000000 in
theorem parseCand_stringifyCand (cd : IceCandidateInit) (h : candOK cd = true)
    (r : List Char) : parseCand (stringifyCand cd ++ r) = some (cd, r) := by
  obtain ⟨cand, mli, mid, uf⟩ := cd
  rcases mli with _ | n <;> rcases mid with _ | ms <;> rcases uf with _ | us <;>
    simp only [candOK, optStrOK, Bool.and_eq_true] at h <;>
    simp only [stringifyCand, stringifyOptNat, stringifyOptStr, List.append_assoc]
  · simp [parseCand, dropLit, readQuoted_quoteStr _ _ (strOK_no_quote _ h.1.1),
      parseOptNat_null, parseOptStr_null]
  · simp [parseCand, dropLit, readQuoted_quoteStr _ _ (strOK_no_quote _ h.1.1),
      parseOptNat_null, parseOptStr_null, parseOptStr_some us (strOK_no_quote _ h.2)]
  · simp [parseCand, dropLit, readQuoted_quoteStr _ _ (strOK_no_quote _ h.1.1),
      parseOptNat_null, parseOptStr_null, parseOptStr_some ms (strOK_no_quote _ h.1.2)]
  · simp [parseCand, dropLit, readQuoted_quoteStr _ _ (strOK_no_quote _ h.1.1),
      parseOptNat_null, parseOptStr_null, parseOptStr_some ms (strOK_no_quote _ h.1.2),
      parseOptStr_some us (strOK_no_quote _ h.2)]
  · simp [parseCand, dropLit, readQuoted_quoteStr _ _ (strOK_no_quote _ h.1.1),
      parseOptNat_null, parseOptStr_null, parseOptNat_some _ ',' (by decide)]
  · simp [parseCand, dropLit, readQuoted_quoteStr _ _ (strOK_no_quote _ h.1.1),
      parseOptNat_null, parseOptStr_null, parseOptNat_some _ ',' (by decide),
      parseOptStr_some us (strOK_no_quote _ h.2)]
  · simp [parseCand, dropLit, readQuoted_quoteStr _ _ (strOK_no_quote _ h.1.1),
      parseOptNat_null, parseOptStr_null, parseOptNat_some _ ',' (by decide),
      parseOptStr_some ms (strOK_no_quote _ h.1.2)]
  · simp [parseCand, dropLit, readQuoted_quoteStr _ _ (strOK_no_quote _ h.1.1),
      parseOptNat_null, parseOptStr_null, parseOptNat_some _ ',' (by decide),
      parseOptStr_some ms (strOK_no_quote _ h.1.2), parseOptStr_some us (strOK_no_quote _ h.2)]

theorem stringifyCand_length_pos (c : IceCandidateInit) : 1 ≤ (stringifyCand c).length := by
  simp [stringifyCand]

theorem stringifyCands_length_ge :
    ∀ l : List IceCandidateInit, l.length ≤ (stringifyCands l).length
  | [] => by simp [stringifyCands]
  | [c] => by
    simp only [stringifyCands, List.length_singleton]
    exact stringifyCand_length_pos c
  | c :: c2 :: rest => by
    have ih := stringifyCands_length_ge (c2 :: rest)
    have hc := stringifyCand_length_pos c
    simp only [stringifyCands, List.length_append, List.length_cons] at *
    omega

theorem parseCandsAux_stringifyCands :
    ∀ (l : List IceCandidateInit), l ≠ [] → (∀ c ∈ l, candOK c = true) →
      ∀ (fuel : ℕ), l.length ≤ fuel → ∀ r : List Char,
        parseCandsAux fuel (stringifyCands l ++ ']' :: r) = some (l, r)
  | [], hne, _, _, _, _ => absurd rfl hne
  | [c], _, hOK, fuel, hfuel, r => by
    cases fuel with
    | zero => simp at hfuel
    | succ f =>
      have hc := hOK c (by simp)
      simp only [stringifyCands]
      simp [parseCandsAux, parseCand_stringifyCand c hc]
  | c :: c2 :: rest, _, hOK, fuel, hfuel, r => by
    cases fuel with
    | zero => simp at hfuel
    | succ f =>
      have hc := hOK c (by simp)
      have ih := parseCandsAux_stringifyCands (c2 :: rest) (by simp)
        (fun x hx => hOK x (by simp [hx])) f (by simp at hfuel ⊢; omega) r
      simp only [stringifyCands, List.append_assoc, List.cons_append]
      simp [parseCandsAux, parseCand_stringifyCand c hc, ih]

theorem stringifyCands_cons_head (c : IceCandidateInit) (cs : List IceCandidateInit) :
    ∃ t, stringifyCands (c :: cs) = '\x7b' :: t := by
  cases cs with
  | nil => exact ⟨_, rfl⟩
  | cons c2 rest => exact ⟨_, rfl⟩

theorem parseCandList_stringifyCandList (l : List IceCandidateInit)
    (h : ∀ c ∈ l, candOK c = true) (r : List Char) :
    parseCandList (stringifyCandList l ++ r) = some (l, r) := by
  cases l with
  | nil => simp [stringifyCandList, stringifyCands, parseCandList]
  | cons c cs =>
    have hshape : stringifyCandList (c :: cs) ++ r
        = '[' :: (stringifyCands (c :: cs) ++ ']' :: r) := by
      simp [stringifyCandList]
    rw [hshape]
    obtain ⟨t, ht⟩ := stringifyCands_cons_head c cs
    have hred : parseCandList ('[' :: (stringifyCands (c :: cs) ++ ']' :: r))
        = parseCandsAux (stringifyCands (c :: cs) ++ ']' :: r).length
            (stringifyCands (c :: cs) ++ ']' :: r) := by
      rw [ht]
      simp [parseCandList]
    rw [hred]
    have hlen : (c :: cs).length ≤ (stringifyCands (c :: cs) ++ ']' :: r).length := by
      have hsg := stringifyCands_length_ge (c :: cs)
      simp only [List.length_append, List.length_cons] at hsg ⊢
      omega
    exact parseCandsAux_stringifyCands (c :: cs) (by simp) h _ hlen r

set_option maxHeartbeats 2000000 in
theorem parseCD_stringifyCD (d : ConnectionData) (h : validCD d = true) :
    parseCD (stringifyCD d) = some d := by
  simp only [validCD, Bool.and_eq_true, List.all_eq_true] at h
  simp only [stringifyCD, List.append_assoc]
  simp [parseCD, dropLit, parseSD_stringifySD _ h.1.1.1,
    parseCandList_stringifyCandList _ h.1.1.2,
    readQuoted_quoteStr _ _ (strOK_no_quote _ h.1.2),
    readQuoted_quoteStr _ _ (strOK_no_quote _ h.2), readInt_intToChars _ '\x7d' (by decide)]

set_option maxHeartbeats 2000000 in
theorem parsePA_stringifyAD (a : AnswerData) (h : validAD a = true) :
    parsePA (stringifyAD a) = some ⟨some a.answer, some a.iceCandidates,
      some a.participantName, some a.participantId⟩ := by
  simp only [validAD, Bool.and_eq_true, List.all_eq_true] at h
  simp only [stringifyAD, List.append_assoc]
  simp [parsePA, tryField, dropLit, parseSD_stringifySD _ h.1.1.1,
    parseCandList_stringifyCandList _ h.1.1.2,
    readQuotedStr_quoteStr _ _ (strOK_no_quote _ h.1.2),
    readQuotedStr_quoteStr _ _ (strOK_no_quote _ h.2)]

/-! ## Latin-1 bounds for the serialized text -/

theorem lat_quoteStr (s : String) (h : strOK s = true) :
    ∀ c ∈ quoteStr s.data, c.toNat < 256 := by
  intro c hc
  rw [quoteStr] at hc
  rcases List.mem_append.1 hc with h1 | h1
  · rcases List.mem_cons.1 h1 with h2 | h2
    · subst h2; decide
    · exact strOK_lt256 _ h c h2
  · simp only [List.mem_singleton] at h1
    subst h1
    decide

theorem lat_intToChars (i : ℤ) : ∀ c ∈ intToChars i, c.toNat < 256 := by
  rw [intToChars]
  split
  · intro c hc
    rcases List.mem_cons.1 hc with rfl | hc
    · decide
    · exact natToChars_lt256 _ c hc
  · exact natToChars_lt256 _

theorem lat_stringifyOptNat (o : Option ℕ) : ∀ c ∈ stringifyOptNat o, c.toNat < 256 := by
  cases o with
  | none => decide
  | some n => exact natToChars_lt256 n

theorem lat_stringifyOptStr (o : Option String) (h : optStrOK o = true) :
    ∀ c ∈ stringifyOptStr o, c.toNat < 256 := by
  cases o with
  | none => decide
  | some s => exact lat_quoteStr s h

theorem lat_stringifySD (d : SessionDescriptionInit) (h : sdOK d = true) :
    ∀ c ∈ stringifySD d, c.toNat < 256 := by
  simp only [sdOK, Bool.and_eq_true] at h
  simp only [stringifySD, List.append_assoc, List.forall_mem_append]
  exact ⟨by decide, lat_quoteStr _ h.1, by decide, lat_quoteStr _ h.2, by decide⟩

theorem lat_stringifyCand (cd : IceCandidateInit) (h : candOK cd = true) :
    ∀ c ∈ stringifyCand cd, c.toNat < 256 := by
  simp only [candOK, Bool.and_eq_true] at h
  simp only [stringifyCand, List.append_assoc, List.forall_mem_append]
  exact ⟨by decide, lat_quoteStr _ h.1.1, by decide, lat_stringifyOptNat _, by decide,
    lat_stringifyOptStr _ h.1.2, by decide, lat_stringifyOptStr _ h.2, by decide⟩

theorem lat_stringifyCands :
    ∀ l : List IceCandidateInit, (∀ c ∈ l, candOK c = true) →
      ∀ c ∈ stringifyCands l, c.toNat < 256
  | [], _ => by simp [stringifyCands]
  | [c], h => by
    simp only [stringifyCands]
    exact lat_stringifyCand c (h c (by simp))
  | c :: c2 :: rest, h => by
    simp only [stringifyCands, List.append_assoc, List.forall_mem_append, List.forall_mem_cons]
    exact ⟨lat_stringifyCand c (h c (by simp)), by decide,
      lat_stringifyCands (c2 :: rest) (fun x hx => h x (by simp at hx ⊢; tauto))⟩

theorem lat_stringifyCandList (l : List IceCandidateInit)
    (h : ∀ c ∈ l, candOK c = true) : ∀ c ∈ stringifyCandList l, c.toNat < 256 := by
  simp only [stringifyCandList, List.append_assoc, List.forall_mem_cons, List.forall_mem_append]
  exact ⟨⟨by decide, lat_stringifyCands l h⟩, by decide⟩

theorem lat_stringifyCD (d : ConnectionData) (h : validCD d = true) :
    ∀ c ∈ stringifyCD d, c.toNat < 256 := by
  simp only [validCD, Bool.and_eq_true, List.all_eq_true] at h
  simp only [stringifyCD, List.append_assoc, List.forall_mem_append]
  exact ⟨by decide, lat_stringifySD _ h.1.1.1, by decide, lat_stringifyCandList _ h.1.1.2,
    by decide, lat_quoteStr _ h.1.2, by decide, lat_quoteStr _ h.2, by decide,
    lat_intToChars _, by decide⟩

theorem lat_stringifyAD (a : AnswerData) (h : validAD a = true) :
    ∀ c ∈ stringifyAD a, c.toNat < 256 := by
  simp only [validAD, Bool.and_eq_true, List.all_eq_true] at h
  simp only [stringifyAD, List.append_assoc, List.forall_mem_append]
  exact ⟨by decide, lat_stringifySD _ h.1.1.1, by decide, lat_stringifyCandList _ h.1.1.2,
    by decide, lat_quoteStr _ h.1.2, by decide, lat_quoteStr _ h.2, by decide⟩

theorem latin1Bytes_of (l : List Char) (h : ∀ c ∈ l, c.toNat < 256) :
    latin1Bytes l = some (l.map Char.toNat) := by
  rw [latin1Bytes, if_pos]
  exact List.all_eq_true.mpr (fun c hc => decide_eq_true (h c hc))

theorem bytes_lt_of (l : List Char) (h : ∀ c ∈ l, c.toNat < 256) :
    ∀ b ∈ l.map Char.toNat, b < 256 := by
  intro b hb
  obtain ⟨c, hc, rfl⟩ := List.mem_map.1 hb
  exact h c hc

theorem map_ofNat_toNat (l : List Char) : (l.map Char.toNat).map Char.ofNat = l := by
  simp [List.map_map, Function.comp_def, Char.ofNat_toNat]

/-! ## Codec round-trips at code level -/

theorem decodeOffer_encodeOffer (d : ConnectionData) (h : validCD d = true) :
    (encodeOffer d).bind decodeOffer = some d := by
  have hlt := lat_stringifyCD d h
  have hbytes : ∀ b ∈ (stringifyCD d).map Char.toNat, b < 256 := bytes_lt_of _ hlt
  rw [encodeOffer, latin1Bytes_of _ hlt]
  simp only [Option.map_some', Option.some_bind]
  simp only [decodeOffer]
  rw [url_strip_b64encode _ hbytes]
  rw [b64body_pad]
  rw [b64decode_b64encode _ hbytes]
  simp only [Option.some_bind]
  rw [map_ofNat_toNat]
  exact parseCD_stringifyCD d h

theorem decodePartialAnswer_encodeAnswer (a : AnswerData) (h : validAD a = true) :
    (encodeAnswer a).bind decodePartialAnswer
      = some ⟨some a.answer, some a.iceCandidates, some a.participantName,
          some a.participantId⟩ := by
  have hlt := lat_stringifyAD a h
  have hbytes : ∀ b ∈ (stringifyAD a).map Char.toNat, b < 256 := bytes_lt_of _ hlt
  rw [encodeAnswer, latin1Bytes_of _ hlt]
  simp only [Option.map_some', Option.some_bind]
  simp only [decodePartialAnswer]
  rw [b64decode_b64encode _ hbytes]
  simp only [Option.some_bind]
  rw [map_ofNat_toNat]
  exact parsePA_stringifyAD a h

theorem decodeAnswer_encodeAnswer (a : AnswerData) (h : validAD a = true) :
    (encodeAnswer a).bind decodeAnswer = some a := by
  have hp := decodePartialAnswer_encodeAnswer a h
  cases hE : encodeAnswer a with
  | none => rw [hE] at hp; simp at hp
  | some code =>
    rw [hE] at hp
    simp only [Option.some_bind] at hp
    simp only [Option.some_bind, decodeAnswer, hp]

/-- C4: decoding inverts encoding field-for-field, for both the offer
(join-code) codec — base64 with URL-safe substitution and stripped
padding — and the answer (response-code) codec, on every valid descriptor
(strings escaping-free and Latin-1, as required for `btoa`). -/
theorem descriptor_roundtrip (d : ConnectionData) (a : AnswerData)
    (h1 : validCD d = true) (h2 : validAD a = true) :
    (encodeOffer d).bind decodeOffer = some d ∧
      (encodeAnswer a).bind decodeAnswer = some a :=
  ⟨decodeOffer_encodeOffer d h1, decodeAnswer_encodeAnswer a h2⟩

/-- C4 witness: a concrete offer and answer descriptor round-trip. -/
theorem descriptor_roundtrip_witness :
    validCD cdOld = true ∧ validAD adW = true ∧
      ((encodeOffer cdOld).bind decodeOffer = some cdOld ∧
        (encodeAnswer adW).bind decodeAnswer = some adW) :=
  ⟨by decide, by decide, descriptor_roundtrip cdOld adW (by decide) (by decide)⟩

/-- C3: for a join code encoding a descriptor with creation time `t`, the
guest's `joinRoomFromLink` reports the expiry error exactly when
`now - t > 300000` ms — and never the malformed-code error — so a code
aged 301000 ms is rejected and one aged 299000 ms is accepted (witness). -/
theorem joinRoomFromLink_expiry (d : ConnectionData) (code : String)
    (h : validCD d = true) (hc : encodeOffer d = some code)
    (userName userId : String) (ans : SessionDescriptionInit)
    (cands : List IceCandidateInit) (now : ℤ) :
    (joinRoomFromLink userName userId ans cands code now = Except.error JoinError.expired
      ↔ now - d.timestamp > 300000) ∧
    joinRoomFromLink userName userId ans cands code now ≠ Except.error JoinError.malformed := by
  have hdec : decodeOffer code = some d := by
    have hrt := decodeOffer_encodeOffer d h
    rw [hc, Option.some_bind] at hrt
    exact hrt
  simp only [joinRoomFromLink, hdec]
  split_ifs with h300
  · simp [h300]
  · simp [h300]

/-- C3 witness: at `now = 400000`, the code created at 99000 (age 301000)
is rejected as expired and the code created at 101000 (age 299000) is
accepted. -/
theorem joinRoomFromLink_expiry_witness :
    (validCD cdOld = true ∧ encodeOffer cdOld = some joinCodeOld ∧
      joinRoomFromLink "n" "B" adW.answer [] joinCodeOld 400000
        = Except.error JoinError.expired) ∧
    (validCD cdNew = true ∧ encodeOffer cdNew = some joinCodeNew ∧
      joinRoomFromLink "n" "B" adW.answer [] joinCodeNew 400000
        ≠ Except.error JoinError.expired) := by
  have hOld : encodeOffer cdOld = some joinCodeOld := by
    have hl := latin1Bytes_of (stringifyCD cdOld) (lat_stringifyCD cdOld (by decide))
    rw [show joinCodeOld = (encodeOffer cdOld).getD "" from rfl, encodeOffer, hl,
      Option.map_some', Option.getD_some]
  have hNew : encodeOffer cdNew = some joinCodeNew := by
    have hl := latin1Bytes_of (stringifyCD cdNew) (lat_stringifyCD cdNew (by decide))
    rw [show joinCodeNew = (encodeOffer cdNew).getD "" from rfl, encodeOffer, hl,
      Option.map_some', Option.getD_some]
  refine ⟨⟨by decide, hOld, ?_⟩, ⟨by decide, hNew, ?_⟩⟩
  · exact (joinRoomFromLink_expiry cdOld joinCodeOld (by decide) hOld "n" "B"
      adW.answer [] 400000).1.mpr (by decide)
  · intro hE
    exact absurd ((joinRoomFromLink_expiry cdNew joinCodeNew (by decide) hNew "n" "B"
      adW.answer [] 400000).1.mp hE) (by decide)

/-- C5 counterexample: a response code whose decoded structure carries
`answer`, `participantName` and `participantId` but no candidate list
passes `validateAnswerCode` and proceeds to admission (the host inserts
the participant), contradicting the claim that all four fields are
required. -/
theorem validateAnswerCode_missing_candidates_passes :
    validateAnswerCode paCode = true ∧
    decodePartialAnswer paCode = some paDecoded ∧
    paDecoded.iceCandidates = none ∧
    mapSize ((handleNewParticipant (mkHost "r" "h" "H" 0) paCode).room.participants) = 2 := by
  decide

/-- C5 (amended): `validateAnswerCode` accepts exactly when the three
fields `answer`, `participantName`, `participantId` are present (the
names JS-truthy, i.e. non-empty); the candidate list is not checked. -/
theorem validateAnswerCode_checks_three_fields (code : String) (p : PartialAnswerData)
    (hd : decodePartialAnswer code = some p) :
    (validateAnswerCode code = true ↔
      (p.answer.isSome = true ∧ jsTruthyStr p.participantName = true ∧
        jsTruthyStr p.participantId = true)) := by
  simp only [validateAnswerCode, hd, Bool.and_eq_true]
  tauto

/-- C5 witness: the three-field characterization instantiated at the
candidate-less code. -/
theorem validateAnswerCode_checks_three_fields_witness :
    decodePartialAnswer paCode = some paDecoded ∧
    (validateAnswerCode paCode = true ↔
      (paDecoded.answer.isSome = true ∧ jsTruthyStr paDecoded.participantName = true ∧
        jsTruthyStr paDecoded.participantId = true)) :=
  ⟨by decide, validateAnswerCode_checks_three_fields paCode paDecoded (by decide)⟩
